import Mathlib

/-!
Shallow embedding of the LinuxSystemMonitor kernel module
(`src/kernel/system_monitor.c`) and of the display client
(`src/userspace/system_monitor_display.c`), together with theorems
settling the frozen claims about the specification.

Conventions:
- C arrays are modelled as total functions `Nat → _`; an array store
  `a[i] = v` becomes a pointwise functional update.
- Machine integers (`u64`, `unsigned long`) are modelled as `Nat`, with
  an explicit `% 2^64` wherever the C arithmetic can wrap.
- Loops with `break` are modelled by structural recursion or by
  `List.takeWhile` on the materialised index range.
-/

namespace SystemMonitor

/-- `#define HISTORY_SIZE 60` -/
def HISTORY_SIZE : Nat := 60

/-- `#define MAX_PROCESSES 50` -/
def MAX_PROCESSES : Nat := 50

/-- Word bound for 64-bit unsigned arithmetic (`u64`, `unsigned long`,
`unsigned long long` on the 64-bit targets this module compiles for). -/
def W64 : Nat := 2 ^ 64

/-- `PAGE_SHIFT` for the usual 4 KiB-page configuration. -/
def PAGE_SHIFT : Nat := 12

/-! ## The history ring buffer (`stats_history`) -/

/-- The `stats_history` global:
`u64 cpu_usage[HISTORY_SIZE]; u64 mem_usage[HISTORY_SIZE]; int head;`
(the spinlock serialises access and has no sequential content). -/
structure StatsHistory where
  cpu_usage : Nat → Nat
  mem_usage : Nat → Nat
  head : Nat

/-- Initial state set up by `system_monitor_init`: static storage is
zero-initialised and `stats_history.head = 0`. -/
def histInit : StatsHistory :=
  { cpu_usage := fun _ => 0, mem_usage := fun _ => 0, head := 0 }

/-- One append, as performed under the lock by `monitor_function`:
```
stats_history.cpu_usage[stats_history.head] = get_jiffies_64();
stats_history.mem_usage[stats_history.head] = si_mem_available();
stats_history.head = (stats_history.head + 1) % HISTORY_SIZE;
```
The two sampled values are passed in as `cpu` (the jiffies marker) and
`mem` (the available-memory reading). -/
def append (h : StatsHistory) (cpu mem : Nat) : StatsHistory :=
  { cpu_usage := fun j => if j = h.head then cpu else h.cpu_usage j,
    mem_usage := fun j => if j = h.head then mem else h.mem_usage j,
    head := (h.head + 1) % HISTORY_SIZE }

/-- A whole sequence of appends, oldest first. -/
def appendAll (h : StatsHistory) (l : List (Nat × Nat)) : StatsHistory :=
  l.foldl (fun g p => append g p.1 p.2) h

/-- The slot index read by `show_history` at loop iteration `i`:
`int idx = (stats_history.head - i - 1 + HISTORY_SIZE) % HISTORY_SIZE;`.
For `head < HISTORY_SIZE` and `i < HISTORY_SIZE` the C `int` expression
is nonnegative and equals this `Nat` expression. -/
def readIdx (g : StatsHistory) (i : Nat) : Nat :=
  (g.head + HISTORY_SIZE - (i + 1)) % HISTORY_SIZE

/-- `show_history`, as the list of `(index, cpu_marker, available_memory)`
tuples printed by its loop `for (i = 0; i < HISTORY_SIZE; i++)`. -/
def show_history (g : StatsHistory) : List (Nat × Nat × Nat) :=
  (List.range HISTORY_SIZE).map
    (fun i => (i, g.cpu_usage (readIdx g i), g.mem_usage (readIdx g i)))

/-- The data lines of the history section, one `"%d,%llu,%llu\n"` line
per tuple. -/
def history_data_lines (g : StatsHistory) : List String :=
  (show_history g).map (fun t => s!"{t.1},{t.2.1},{t.2.2}")

/-- Stream rendering of `show_history`:
`seq_puts(m, "history:\n")` then the data lines. -/
def show_history_lines (g : StatsHistory) : List String :=
  "history:" :: history_data_lines g

/-! ## The per-process snapshot table (`top_processes`) -/

/-- `struct process_stats` -/
structure ProcessStats where
  pid : Nat
  cpu_time : Nat
  vm_size : Nat
  comm : String
  deriving DecidableEq

/-- A process descriptor as seen by `collect_process_stats` through
`for_each_process`: the fields of `task_struct` the module reads.
`mm = none` models a kernel thread (`task->mm == NULL`), `mm = some tv`
a task whose `mm->total_vm` is `tv` pages.  `read_bytes`/`write_bytes`
are the `task->ioac` counters read by `get_io_stats`. -/
structure Task where
  pid : Nat
  utime : Nat
  stime : Nat
  mm : Option Nat
  comm : String
  read_bytes : Nat
  write_bytes : Nat
  deriving DecidableEq

/-- The slot contents `collect_process_stats` computes for one task:
```
stats->pid = task->pid;
stats->cpu_time = task->utime + task->stime;
if (task->mm) stats->vm_size = task->mm->total_vm << PAGE_SHIFT;
else stats->vm_size = 0;
get_task_comm(stats->comm, task);
```
`utime`, `stime`, `cpu_time` are `u64`; `vm_size` is `unsigned long`. -/
def task_to_stats (t : Task) : ProcessStats :=
  { pid := t.pid,
    cpu_time := (t.utime + t.stime) % W64,
    vm_size := match t.mm with
      | some tv => (tv <<< PAGE_SHIFT) % W64
      | none => 0,
    comm := t.comm }

/-- The loop body of `collect_process_stats`: starting at slot `i`,
write each enumerated task into the next slot, stopping at
`MAX_PROCESSES` (`if (i >= MAX_PROCESSES) break;`).  Slots not written
keep their previous contents — the loop never clears trailing slots. -/
def writeProcs (table : Nat → ProcessStats) (i : Nat) :
    List Task → (Nat → ProcessStats)
  | [] => table
  | t :: ts =>
    if MAX_PROCESSES ≤ i then table
    else writeProcs (fun j => if j = i then task_to_stats t else table j) (i + 1) ts

/-- `collect_process_stats`, as a function from the previous table state
and the current process enumeration to the new table state. -/
def collect_process_stats (table : Nat → ProcessStats) (procs : List Task) :
    Nat → ProcessStats :=
  writeProcs table 0 procs

/-- The entries emitted by `show_top_processes`:
`for (i = 0; i < MAX_PROCESSES; i++) { if (top_processes[i].pid == 0) break; ... }`
— i.e. the longest prefix of the 50 slots with nonzero pid. -/
def topEntries (table : Nat → ProcessStats) : List ProcessStats :=
  ((List.range MAX_PROCESSES).map table).takeWhile (fun p => p.pid != 0)

/-- The data lines of the top_processes section, one
`"%d,%s,%llu,%lu\n"` line per valid entry. -/
def top_data_lines (table : Nat → ProcessStats) : List String :=
  (topEntries table).map (fun p => s!"{p.pid},{p.comm},{p.cpu_time},{p.vm_size}")

/-- Stream rendering of `show_top_processes`:
`seq_puts(m, "\ntop_processes:\n")` (an empty line, then the header)
followed by the data lines. -/
def show_top_processes_lines (table : Nat → ProcessStats) : List String :=
  "" :: "top_processes:" :: top_data_lines table

/-! ## The sampling loop (`monitor_function`) -/

/-- The module state touched by one iteration of `monitor_function`:
the `monitoring` flag (an `int`, 1 = enabled), the history ring buffer
and the process table. -/
structure MonitorState where
  monitoring : Nat
  history : StatsHistory
  table : Nat → ProcessStats

/-- What the environment supplies to one tick: the live process
enumeration, `get_jiffies_64()` and `si_mem_available()`. -/
structure TickInput where
  procs : List Task
  jiffies : Nat
  mem_avail : Nat

/-- One iteration of the `monitor_function` loop body:
```
if (monitoring == 1) {
    collect_process_stats();
    ... append (get_jiffies_64(), si_mem_available()) to stats_history ...
}
```
(the `msleep(1000)` has no effect on the modelled state). -/
def monitor_tick (s : MonitorState) (inp : TickInput) : MonitorState :=
  if s.monitoring = 1 then
    { monitoring := s.monitoring,
      history := append s.history (inp.jiffies % W64) (inp.mem_avail % W64),
      table := collect_process_stats s.table inp.procs }
  else s

/-- A sequence of ticks. -/
def monitor_ticks (s : MonitorState) (l : List TickInput) : MonitorState :=
  l.foldl monitor_tick s

/-! ## The control channel (`control_write`) -/

/-- `strncmp(a, b, n)` on NUL-terminated byte strings, modelled on byte
lists where reading past the end of a list yields the terminating NUL.
Stops at the first differing byte, or at a common NUL, or after `n`
bytes. -/
def strncmp (a b : List Nat) : Nat → Int
  | 0 => 0
  | n + 1 =>
    let ca := a.headD 0
    let cb := b.headD 0
    if ca ≠ cb then (ca : Int) - (cb : Int)
    else if ca = 0 then 0
    else strncmp a.tail b.tail n

/-- The bytes of `"enable"`. -/
def enableBytes : List Nat := [101, 110, 97, 98, 108, 101]

/-- The bytes of `"disable"`. -/
def disableBytes : List Nat := [100, 105, 115, 97, 98, 108, 101]

/-- `control_write`, given the current `monitoring` flag and the written
bytes; returns the new flag and the `ssize_t` return value.
```
char cmd[32];
size_t len = min(count, sizeof(cmd) - 1);
copy_from_user(cmd, buffer, len);  cmd[len] = '\0';
if (strncmp(cmd, "enable", 6) == 0) monitoring = 1;
else if (strncmp(cmd, "disable", 7) == 0) monitoring = 0;
return count;
```
(The `-EFAULT` branch for an unreadable user buffer is outside the
model: `input` is the successfully copied byte sequence.) -/
def control_write (monitoring : Nat) (input : List Nat) : Nat × Nat :=
  let count := input.length
  let len := min count 31
  let cmd := input.take len
  let monitoring' :=
    if strncmp cmd enableBytes 6 = 0 then 1
    else if strncmp cmd disableBytes 7 = 0 then 0
    else monitoring
  (monitoring', count)

/-- `beginsWith b l`: the byte list `l` begins with `b`. -/
def beginsWith (b l : List Nat) : Prop := l.take b.length = b

instance decBeginsWith (b l : List Nat) : Decidable (beginsWith b l) :=
  inferInstanceAs (Decidable (l.take b.length = b))

/-! ## The live metric sections of the renderer -/

/-- One per-CPU `struct kernel_cpustat`: the `cpustat[]` array of `u64`
counters, indexed by `enum cpu_usage_stat`. -/
structure KernelCpustat where
  cpustat : Nat → Nat

/-- `enum cpu_usage_stat` indices (include/linux/kernel_stat.h):
`CPUTIME_USER = 0, CPUTIME_NICE, CPUTIME_SYSTEM, CPUTIME_SOFTIRQ,
CPUTIME_IRQ, CPUTIME_IDLE, ...` -/
def CPUTIME_USER : Nat := 0
def CPUTIME_NICE : Nat := 1
def CPUTIME_SYSTEM : Nat := 2
def CPUTIME_SOFTIRQ : Nat := 3
def CPUTIME_IRQ : Nat := 4
def CPUTIME_IDLE : Nat := 5

/-- `enum vtime_state` values (include/linux/sched.h):
`VTIME_INACTIVE = 0, VTIME_IDLE, VTIME_SYS, VTIME_USER, VTIME_GUEST`.
These are task vtime states, not `cpustat[]` indices, yet
`get_cpu_stats` uses three of them to index `cpustat[]`. -/
def VTIME_INACTIVE : Nat := 0
def VTIME_IDLE : Nat := 1
def VTIME_SYS : Nat := 2
def VTIME_USER : Nat := 3

/-- `u64` accumulation `acc += x` across the per-CPU loop. -/
def sumU64 (xs : List Nat) : Nat := xs.foldl (fun acc x => (acc + x) % W64) 0

/-- The four sums computed by `get_cpu_stats`:
```
for_each_possible_cpu(cpu) {
    user   += kcs->cpustat[VTIME_USER];
    nice   += kcs->cpustat[CPUTIME_NICE];
    system += kcs->cpustat[VTIME_SYS];
    idle   += kcs->cpustat[VTIME_IDLE];
}
```
-/
def get_cpu_stats (cpus : List KernelCpustat) : Nat × Nat × Nat × Nat :=
  (sumU64 (cpus.map (fun k => k.cpustat VTIME_USER)),
   sumU64 (cpus.map (fun k => k.cpustat CPUTIME_NICE)),
   sumU64 (cpus.map (fun k => k.cpustat VTIME_SYS)),
   sumU64 (cpus.map (fun k => k.cpustat VTIME_IDLE)))

/-- Modelled from the spec: the cpu_stats section the spec describes —
"aggregate (user, nice, system, idle) counters summed across all
execution units", i.e. the `cpustat[]` entries at the `CPUTIME_USER`,
`CPUTIME_NICE`, `CPUTIME_SYSTEM` and `CPUTIME_IDLE` indices. -/
def cpu_stats_claimed (cpus : List KernelCpustat) : Nat × Nat × Nat × Nat :=
  (sumU64 (cpus.map (fun k => k.cpustat CPUTIME_USER)),
   sumU64 (cpus.map (fun k => k.cpustat CPUTIME_NICE)),
   sumU64 (cpus.map (fun k => k.cpustat CPUTIME_SYSTEM)),
   sumU64 (cpus.map (fun k => k.cpustat CPUTIME_IDLE)))

/-- The `cpu_stats:` line emitted by `get_cpu_stats` via
`seq_printf(m, "cpu_stats:%llu,%llu,%llu,%llu\n", user, nice, system, idle)`. -/
def cpu_stats_body (cpus : List KernelCpustat) : String :=
  let v := get_cpu_stats cpus
  s!"{v.1},{v.2.1},{v.2.2.1},{v.2.2.2}"

def get_cpu_stats_line (cpus : List KernelCpustat) : String :=
  "cpu_stats:" ++ cpu_stats_body cpus

/-- `memShift = PAGE_SHIFT - 10`: pages → kilobytes. -/
def memShift : Nat := PAGE_SHIFT - 10

/-- The triple printed by `get_memory_stats`:
```
seq_printf(m, "memory_stats:%lu,%lu,%lu\n",
    si.totalram << (PAGE_SHIFT - 10),
    si.freeram << (PAGE_SHIFT - 10),
    (si.totalram - si.freeram) << (PAGE_SHIFT - 10));
```
`totalram`/`freeram` are `unsigned long`; the subtraction and the shifts
wrap modulo `2^64`. -/
def get_memory_stats (totalram freeram : Nat) : Nat × Nat × Nat :=
  let t := totalram % W64
  let f := freeram % W64
  ((t <<< memShift) % W64,
   (f <<< memShift) % W64,
   (((t + W64 - f) % W64) <<< memShift) % W64)

def memory_stats_body (totalram freeram : Nat) : String :=
  let v := get_memory_stats totalram freeram
  s!"{v.1},{v.2.1},{v.2.2}"

def get_memory_stats_line (totalram freeram : Nat) : String :=
  "memory_stats:" ++ memory_stats_body totalram freeram

/-- `get_process_count`: counts the live process enumeration. -/
def get_process_count (tasks : List Task) : Nat := tasks.length

def process_count_body (tasks : List Task) : String :=
  s!"{get_process_count tasks}"

def get_process_count_line (tasks : List Task) : String :=
  "process_count:" ++ process_count_body tasks

/-- The two sums of `get_io_stats`:
```
if (task->ioac.read_bytes)  read_bytes  += task->ioac.read_bytes;
if (task->ioac.write_bytes) write_bytes += task->ioac.write_bytes;
```
-/
def get_io_stats (tasks : List Task) : Nat × Nat :=
  (tasks.foldl (fun acc t => if t.read_bytes ≠ 0 then (acc + t.read_bytes) % W64 else acc) 0,
   tasks.foldl (fun acc t => if t.write_bytes ≠ 0 then (acc + t.write_bytes) % W64 else acc) 0)

def io_stats_body (tasks : List Task) : String :=
  s!"{(get_io_stats tasks).1},{(get_io_stats tasks).2}"

def get_io_stats_line (tasks : List Task) : String :=
  "io_stats:" ++ io_stats_body tasks

/-- One network device's `rtnl_link_stats64` counters as read by
`get_network_stats`. -/
structure NetDev where
  rx_bytes : Nat
  tx_bytes : Nat
  rx_packets : Nat
  tx_packets : Nat

/-- The four sums of `get_network_stats`. -/
def get_network_stats (devs : List NetDev) : Nat × Nat × Nat × Nat :=
  (sumU64 (devs.map NetDev.rx_bytes),
   sumU64 (devs.map NetDev.tx_bytes),
   sumU64 (devs.map NetDev.rx_packets),
   sumU64 (devs.map NetDev.tx_packets))

def network_stats_body (devs : List NetDev) : String :=
  let v := get_network_stats devs
  s!"{v.1},{v.2.1},{v.2.2.1},{v.2.2.2}"

def get_network_stats_line (devs : List NetDev) : String :=
  "network_stats:" ++ network_stats_body devs

/-- `system_stats_show`: the whole `/proc/system_monitor` report as the
`seq_file` line stream plus the function's return value (always 0):
```
get_cpu_stats(m); get_memory_stats(m); get_process_count(m);
get_io_stats(m); get_network_stats(m); show_history(m);
show_top_processes(m); return 0;
```
-/
def system_stats_show (cpus : List KernelCpustat) (totalram freeram : Nat)
    (tasks : List Task) (devs : List NetDev) (hist : StatsHistory)
    (table : Nat → ProcessStats) : Nat × List String :=
  (0,
    [get_cpu_stats_line cpus,
     get_memory_stats_line totalram freeram,
     get_process_count_line tasks,
     get_io_stats_line tasks,
     get_network_stats_line devs] ++
    show_history_lines hist ++
    show_top_processes_lines table)

/-! ## The display client's parser (`system_monitor_display.c`) -/

/-- `struct system_stats` of the display client. -/
structure SystemStats where
  user : Nat
  nice : Nat
  system : Nat
  idle : Nat
  total_mem : Nat
  free_mem : Nat
  used_mem : Nat
  process_count : Nat
  rx_bytes : Nat
  tx_bytes : Nat
  rx_packets : Nat
  tx_packets : Nat
  deriving DecidableEq

/-- One `strtok` step: skip leading delimiter characters; if nothing is
left return `NULL` (`none`); otherwise return the token (the characters
up to the next delimiter or the end) and the remainder past the single
delimiter that terminated the token (`strtok` overwrites it with NUL
and resumes after it). -/
def strtok1 (s : List Char) (delims : List Char) : Option (List Char × List Char) :=
  let s1 := s.dropWhile (fun c => delims.contains c)
  if s1 = [] then none
  else some (s1.takeWhile (fun c => !delims.contains c),
             (s1.dropWhile (fun c => !delims.contains c)).drop 1)

/-- A maximal run of decimal digits, as `sscanf`'s integer conversion
reads it; `none` when the input does not start with a digit. -/
def parseDigits (s : List Char) : Option (Nat × List Char) :=
  let ds := s.takeWhile Char.isDigit
  if ds = [] then none
  else some (ds.foldl (fun a c => a * 10 + (c.toNat - 48)) 0,
             s.dropWhile Char.isDigit)

/-- `sscanf(value, "%llu,%llu,...")` with `n` conversions: each `%llu`
skips leading whitespace then reads digits, and each literal `,` in the
format must match the next input character.  The returned list holds
the successfully assigned values, in order; `sscanf` stops at the first
failing conversion and leaves later arguments unassigned.  (Sign
handling of `strtoull` is not modelled; the protocol only carries
unsigned decimal values.) -/
def scanCommaNats : Nat → List Char → List Nat
  | 0, _ => []
  | n + 1, s =>
    match parseDigits (s.dropWhile Char.isWhitespace) with
    | none => []
    | some (v, rest) =>
      if n = 0 then [v]
      else
        match rest with
        | ',' :: rest2 => v :: scanCommaNats n rest2
        | _ => [v]

/-- `parse_line` of the display client:
```
char *key = strtok(line, ":");
char *value = strtok(NULL, "\n");
if (!key || !value) return;
if (strcmp(key, "cpu_stats") == 0) sscanf(value, "%llu,%llu,%llu,%llu", ...);
else if (strcmp(key, "memory_stats") == 0) sscanf(value, "%lu,%lu,%lu", ...);
else if (strcmp(key, "process_count") == 0) sscanf(value, "%d", ...);
else if (strcmp(key, "network_stats") == 0) sscanf(value, "%lu,%lu,%lu,%lu", ...);
```
-/
def parse_line (line : String) (st : SystemStats) : SystemStats :=
  match strtok1 line.toList [':'] with
  | none => st
  | some (key, rest1) =>
    match strtok1 rest1 ['\n'] with
    | none => st
    | some (value, _) =>
      if key = "cpu_stats".toList then
        let vs := scanCommaNats 4 value
        { st with user := vs.getD 0 st.user, nice := vs.getD 1 st.nice,
                  system := vs.getD 2 st.system, idle := vs.getD 3 st.idle }
      else if key = "memory_stats".toList then
        let vs := scanCommaNats 3 value
        { st with total_mem := vs.getD 0 st.total_mem,
                  free_mem := vs.getD 1 st.free_mem,
                  used_mem := vs.getD 2 st.used_mem }
      else if key = "process_count".toList then
        let vs := scanCommaNats 1 value
        { st with process_count := vs.getD 0 st.process_count }
      else if key = "network_stats".toList then
        let vs := scanCommaNats 4 value
        { st with rx_bytes := vs.getD 0 st.rx_bytes,
                  tx_bytes := vs.getD 1 st.tx_bytes,
                  rx_packets := vs.getD 2 st.rx_packets,
                  tx_packets := vs.getD 3 st.tx_packets }
      else st

/-- Whether `strtok(line, ":")` yields a token equal to one of the four
keys `parse_line` recognizes. -/
def lineKeyRecognized (line : String) : Bool :=
  match strtok1 line.toList [':'] with
  | none => false
  | some (key, _) =>
    key = "cpu_stats".toList || key = "memory_stats".toList ||
    key = "process_count".toList || key = "network_stats".toList

/-! ## Concrete fixtures used by the witness and counterexample theorems -/

def dfltTask : Task := { pid := 0, utime := 0, stime := 0, mm := none,
                         comm := "", read_bytes := 0, write_bytes := 0 }

def taskA : Task := { pid := 1, utime := 2, stime := 3, mm := some 4,
                      comm := "a", read_bytes := 5, write_bytes := 6 }

def taskB : Task := { pid := 2, utime := 0, stime := 0, mm := none,
                      comm := "b", read_bytes := 0, write_bytes := 0 }

def taskC : Task := { pid := 3, utime := 0, stime := 0, mm := none,
                      comm := "c", read_bytes := 0, write_bytes := 0 }

def zeroProc : ProcessStats := { pid := 0, cpu_time := 0, vm_size := 0, comm := "" }

/-- The statically zero-initialised `top_processes` array. -/
def zeroTable : Nat → ProcessStats := fun _ => zeroProc

/-- A per-CPU counter state with pairwise distinct values:
user 10, nice 20, system 30, softirq 40, irq 50, idle 60. -/
def k0 : KernelCpustat :=
  { cpustat := fun i => [10, 20, 30, 40, 50, 60].getD i 0 }

def zeroStats : SystemStats :=
  { user := 0, nice := 0, system := 0, idle := 0,
    total_mem := 0, free_mem := 0, used_mem := 0, process_count := 0,
    rx_bytes := 0, tx_bytes := 0, rx_packets := 0, tx_packets := 0 }

/-- 61 pairwise distinct append pairs. -/
def l61 : List (Nat × Nat) := (List.range 61).map (fun k => (k + 1, k + 1))

/-- An enumeration of 55 > M live processes (all with nonzero pid). -/
def procs55 : List Task := List.replicate 55 taskA

def s0 : MonitorState := { monitoring := 0, history := histInit, table := zeroTable }

def inp0 : TickInput := { procs := [taskB], jiffies := 5, mem_avail := 7 }

def ticks0 : List TickInput := [inp0, inp0]

/-! Basic invariants of the ring buffer. -/

theorem appendAll_cons (h : StatsHistory) (p : Nat × Nat) (l : List (Nat × Nat)) :
    appendAll h (p :: l) = appendAll (append h p.1 p.2) l := rfl

theorem appendAll_concat (h : StatsHistory) (l : List (Nat × Nat)) (p : Nat × Nat) :
    appendAll h (l ++ [p]) = append (appendAll h l) p.1 p.2 := by
  simp [appendAll, List.foldl_append]

theorem append_head (h : StatsHistory) (cpu mem : Nat) :
    (append h cpu mem).head = (h.head + 1) % HISTORY_SIZE := rfl

theorem appendAll_head (l : List (Nat × Nat)) :
    ∀ h : StatsHistory, h.head < HISTORY_SIZE →
      (appendAll h l).head = (h.head + l.length) % HISTORY_SIZE := by
  induction l with
  | nil =>
    intro h hh
    simp [appendAll, Nat.mod_eq_of_lt hh]
  | cons p l ih =>
    intro h hh
    rw [appendAll_cons]
    have h1 : (append h p.1 p.2).head < HISTORY_SIZE := by
      rw [append_head]
      exact Nat.mod_lt _ (by simp [HISTORY_SIZE])
    rw [ih _ h1, append_head]
    simp only [HISTORY_SIZE, List.length_cons] at *
    omega

/-- Core read-back lemma: after appending the list `l` (oldest first) to a
state whose head is in range, reading back slot `readIdx _ i` for any
`i < min l.length HISTORY_SIZE` yields the `i`-th most recent append. -/
theorem appendAll_read (h : StatsHistory) (hh : h.head < HISTORY_SIZE)
    (l : List (Nat × Nat)) :
    ∀ i, i < l.length → i < HISTORY_SIZE →
      ((appendAll h l).cpu_usage (readIdx (appendAll h l) i),
       (appendAll h l).mem_usage (readIdx (appendAll h l) i)) =
        l.reverse.getD i (0, 0) := by
  induction l using List.reverseRecOn with
  | nil => intro i hi _; simp at hi
  | append_singleton l x ih =>
    intro i hi1 hi2
    rw [appendAll_concat]
    have hgh : (appendAll h l).head < HISTORY_SIZE := by
      rw [appendAll_head l h hh]
      exact Nat.mod_lt _ (by simp [HISTORY_SIZE])
    set g := appendAll h l with hg
    match i with
    | 0 =>
      have hidx : readIdx (append g x.1 x.2) 0 = g.head := by
        simp only [readIdx, append_head, HISTORY_SIZE] at *
        omega
      rw [hidx]
      simp [append, List.reverse_append]
    | Nat.succ j =>
      have hj1 : j < l.length := by simpa using hi1
      have hj2 : j < HISTORY_SIZE := by omega
      have hidx : readIdx (append g x.1 x.2) (j + 1) = readIdx g j := by
        simp only [readIdx, append_head, HISTORY_SIZE] at *
        omega
      have hne : readIdx g j ≠ g.head := by
        simp only [readIdx, HISTORY_SIZE] at *
        omega
      rw [hidx]
      simp only [append]
      rw [if_neg hne, if_neg hne]
      rw [ih j hj1 hj2]
      simp [List.reverse_append]

/-- C1: for every sequence of K appends to the ring buffer (capacity
N = 60, starting from the zero-initialised state), the history snapshot
at position `i`, for every `i < min K N`, is the tuple
`(i, cpu_marker, available_memory)` of the `i`-th most recent append —
in particular position 0 holds the most recently appended pair. -/
theorem ring_buffer_ordering (l : List (Nat × Nat)) (i : Nat)
    (hi : i < min l.length HISTORY_SIZE) :
    (show_history (appendAll histInit l)).getD i (0, 0, 0) =
      (i, l.reverse.getD i (0, 0)) := by
  have hi1 : i < l.length := lt_of_lt_of_le hi (Nat.min_le_left _ _)
  have hi2 : i < HISTORY_SIZE := lt_of_lt_of_le hi (Nat.min_le_right _ _)
  have hlen : i < (show_history (appendAll histInit l)).length := by
    simpa [show_history] using hi2
  rw [List.getD_eq_getElem _ _ hlen]
  simp only [show_history, List.getElem_map, List.getElem_range]
  rw [← appendAll_read histInit (by decide) l i hi1 hi2]

/-- Witness for C1: two appends `(1,2)` then `(3,4)`; position 0 of the
snapshot holds the most recent pair `(3,4)`. -/
theorem ring_buffer_ordering_witness :
    (0 < min ([(1, 2), (3, 4)] : List (Nat × Nat)).length HISTORY_SIZE) ∧
    (show_history (appendAll histInit [(1, 2), (3, 4)])).getD 0 (0, 0, 0) =
      (0, ([(1, 2), (3, 4)] : List (Nat × Nat)).reverse.getD 0 (0, 0)) :=
  ⟨by decide, ring_buffer_ordering [(1, 2), (3, 4)] 0 (by decide)⟩

/-- C3: after exactly N + 1 = 61 appends of a value that recurs in none
of the 60 later appends, the first appended entry appears in no snapshot
tuple, and — for any number of appends whatsoever — the snapshot always
consists of exactly N = 60 tuples. -/
theorem ring_buffer_wraparound (l : List (Nat × Nat)) (hlen : l.length = 61)
    (hfresh : l.getD 0 (0, 0) ∉ l.drop 1) :
    (∀ t ∈ show_history (appendAll histInit l), (t.2.1, t.2.2) ≠ l.getD 0 (0, 0)) ∧
    (∀ l' : List (Nat × Nat), (show_history (appendAll histInit l')).length = HISTORY_SIZE) := by
  constructor
  · intro t ht
    simp only [show_history, List.mem_map, List.mem_range] at ht
    obtain ⟨i, hi, rfl⟩ := ht
    cases l with
    | nil => simp at hlen
    | cons p l2 =>
      have hl2 : l2.length = 60 := by simpa using hlen
      have hi1 : i < (p :: l2).length := by
        simp only [HISTORY_SIZE] at hi
        simp [hl2]; omega
      have hpair := appendAll_read histInit (by decide) (p :: l2) i hi1 hi
      simp only [List.getD_cons_zero, List.drop_succ_cons, List.drop_zero] at hfresh ⊢
      rw [hpair, List.reverse_cons]
      have hirev : i < l2.reverse.length := by
        simp only [HISTORY_SIZE] at hi
        simp [hl2]; omega
      rw [List.getD_append _ _ _ _ hirev]
      intro heq
      apply hfresh
      rw [List.getD_eq_getElem _ _ hirev] at heq
      exact List.mem_reverse.mp (heq ▸ List.getElem_mem hirev)
  · intro l'
    simp [show_history]

/-- Witness for C3: 61 pairwise distinct appends `(1,1) … (61,61)`;
the first pair `(1,1)` appears in no snapshot tuple. -/
theorem ring_buffer_wraparound_witness :
    (l61.length = 61 ∧ l61.getD 0 (0, 0) ∉ l61.drop 1) ∧
    (∀ t ∈ show_history (appendAll histInit l61), (t.2.1, t.2.2) ≠ l61.getD 0 (0, 0)) :=
  ⟨⟨by decide, by decide⟩, (ring_buffer_wraparound l61 (by decide) (by decide)).1⟩

/-! ## Process table theorems -/

theorem takeWhile_length_le {α : Type} (p : α → Bool) (l : List α) :
    (l.takeWhile p).length ≤ l.length := by
  induction l with
  | nil => simp
  | cons a l ih =>
    rw [List.takeWhile_cons]
    by_cases h : p a
    · simpa [h] using Nat.succ_le_succ ih
    · simp [h]

/-- Pointwise characterisation of the `collect_process_stats` write loop:
slot `j` receives the `(j - i)`-th task when `j` lies in the written
window, and keeps its previous contents otherwise. -/
theorem writeProcs_apply (procs : List Task) :
    ∀ (table : Nat → ProcessStats) (i j : Nat),
      writeProcs table i procs j =
        if i ≤ j ∧ j < i + procs.length ∧ j < MAX_PROCESSES
        then task_to_stats (procs.getD (j - i) dfltTask)
        else table j := by
  induction procs with
  | nil =>
    intro table i j
    simp only [writeProcs, List.length_nil]
    rw [if_neg]
    rintro ⟨h1, h2, h3⟩
    omega
  | cons t ts ih =>
    intro table i j
    simp only [writeProcs, List.length_cons]
    by_cases hi : MAX_PROCESSES ≤ i
    · rw [if_pos hi, if_neg]
      rintro ⟨h1, h2, h3⟩
      omega
    · rw [if_neg hi, ih]
      rcases Nat.lt_trichotomy j i with hj | hj | hj
      · have hn1 : ¬(i + 1 ≤ j ∧ j < i + 1 + ts.length ∧ j < MAX_PROCESSES) := by omega
        have hn2 : ¬(i ≤ j ∧ j < i + (ts.length + 1) ∧ j < MAX_PROCESSES) := by omega
        rw [if_neg hn1, if_neg hn2]
        simp [show ¬(j = i) by omega]
      · subst hj
        have hn1 : ¬(j + 1 ≤ j ∧ j < j + 1 + ts.length ∧ j < MAX_PROCESSES) := by omega
        have hp2 : j ≤ j ∧ j < j + (ts.length + 1) ∧ j < MAX_PROCESSES :=
          ⟨le_refl j, by omega, by omega⟩
        rw [if_neg hn1, if_pos hp2]
        simp
      · have hcongr : (i + 1 ≤ j ∧ j < i + 1 + ts.length ∧ j < MAX_PROCESSES) ↔
            (i ≤ j ∧ j < i + (ts.length + 1) ∧ j < MAX_PROCESSES) := by
          constructor <;> (rintro ⟨h1, h2, h3⟩; exact ⟨by omega, by omega, h3⟩)
        by_cases hc : i + 1 ≤ j ∧ j < i + 1 + ts.length ∧ j < MAX_PROCESSES
        · rw [if_pos hc, if_pos (hcongr.mp hc)]
          have hsub : j - i = (j - (i + 1)) + 1 := by omega
          rw [hsub, List.getD_cons_succ]
        · rw [if_neg hc, if_neg (fun h => hc (hcongr.mpr h))]
          simp [show ¬(j = i) by omega]

/-- C7: refreshing the table with an enumeration of at least M = 50
processes, all with nonzero pid, writes exactly the first M processes in
enumeration order into the M slots; the render loop then finds exactly M
valid entries, and for any table state at all it never finds more
than M. -/
theorem table_capacity (table : Nat → ProcessStats) (procs : List Task)
    (h50 : MAX_PROCESSES ≤ procs.length) (hpid : ∀ t ∈ procs, t.pid ≠ 0) :
    (∀ j, j < MAX_PROCESSES →
       collect_process_stats table procs j = task_to_stats (procs.getD j dfltTask)) ∧
    (topEntries (collect_process_stats table procs)).length = MAX_PROCESSES ∧
    (∀ tb : Nat → ProcessStats, (topEntries tb).length ≤ MAX_PROCESSES) := by
  have happ : ∀ j, j < MAX_PROCESSES →
      collect_process_stats table procs j = task_to_stats (procs.getD j dfltTask) := by
    intro j hj
    unfold collect_process_stats
    rw [writeProcs_apply, if_pos ⟨Nat.zero_le j, by omega, hj⟩]
    simp
  refine ⟨happ, ?_, ?_⟩
  · unfold topEntries
    rw [List.takeWhile_eq_self_iff.mpr ?_, List.length_map, List.length_range]
    intro x hx
    simp only [List.mem_map, List.mem_range] at hx
    obtain ⟨j, hj, rfl⟩ := hx
    rw [happ j hj]
    have hmem : procs.getD j dfltTask ∈ procs := by
      rw [List.getD_eq_getElem _ _ (by omega)]
      exact List.getElem_mem (by omega)
    have hne := hpid _ hmem
    simpa [task_to_stats] using hne
  · intro tb
    unfold topEntries
    calc (((List.range MAX_PROCESSES).map tb).takeWhile (fun p => p.pid != 0)).length
        ≤ ((List.range MAX_PROCESSES).map tb).length := takeWhile_length_le _ _
      _ = MAX_PROCESSES := by simp

/-- Witness for C7: refreshing with 55 copies of a pid-1 process yields
exactly 50 valid entries. -/
theorem table_capacity_witness :
    (MAX_PROCESSES ≤ procs55.length ∧ ∀ t ∈ procs55, t.pid ≠ 0) ∧
    (topEntries (collect_process_stats zeroTable procs55)).length = MAX_PROCESSES :=
  ⟨⟨by decide, by decide⟩,
   (table_capacity zeroTable procs55 (by decide) (by decide)).2.1⟩

/-- C2 is a code bug: `collect_process_stats` never clears the slots
beyond the last enumerated process.  Refreshing a table that previously
held two processes (pids 1, 2) with a single process (pid 3) leaves slot
1 with the stale pid 2, and the render loop emits 2 lines instead of 1. -/
theorem table_stale_slot_bug :
    ((collect_process_stats (collect_process_stats zeroTable [taskA, taskB]) [taskC]) 1).pid = 2 ∧
    (topEntries (collect_process_stats (collect_process_stats zeroTable [taskA, taskB]) [taskC])).length = 2 := by
  decide

/-! ## Sampling-loop theorems -/

theorem monitor_tick_disabled (s : MonitorState) (hdis : s.monitoring = 0)
    (inp : TickInput) : monitor_tick s inp = s := by
  simp [monitor_tick, hdis]

/-- C6: with the flag disabled (monitoring = 0), any number of sampling
ticks returns the state unchanged — same ring-buffer head, same slot
contents, same process-table slots; and once the flag is set back to 1,
the very next tick appends exactly one new history entry (and refreshes
the table). -/
theorem flag_gating (s : MonitorState) (l : List TickInput) (inp : TickInput)
    (hdis : s.monitoring = 0) :
    monitor_ticks s l = s ∧
    monitor_tick { s with monitoring := 1 } inp =
      { monitoring := 1,
        history := append s.history (inp.jiffies % W64) (inp.mem_avail % W64),
        table := collect_process_stats s.table inp.procs } := by
  constructor
  · induction l with
    | nil => rfl
    | cons x xs ih =>
      show List.foldl monitor_tick (monitor_tick s x) xs = s
      rw [monitor_tick_disabled s hdis x]
      exact ih
  · rfl

/-- Witness for C6: a disabled state ticked twice is unchanged. -/
theorem flag_gating_witness :
    s0.monitoring = 0 ∧ monitor_ticks s0 ticks0 = s0 :=
  ⟨rfl, (flag_gating s0 ticks0 inp0 rfl).1⟩

/-! ## Renderer theorems -/

/-- C4 is a code bug: `get_cpu_stats` indexes `cpustat[]` with
`enum vtime_state` constants.  `VTIME_USER = 3` selects the softirq
counter and `VTIME_IDLE = 1` selects the nice counter, so on a CPU with
(user, nice, system, softirq, irq, idle) = (10, 20, 30, 40, 50, 60) the
emitted quadruple is (40, 20, 30, 20), not the (10, 20, 30, 60) the
claim describes (`cpu_stats_claimed`, modelled from the spec's words). -/
theorem cpu_stats_index_bug :
    get_cpu_stats [k0] = (40, 20, 30, 20) ∧
    cpu_stats_claimed [k0] = (10, 20, 30, 60) ∧
    get_cpu_stats [k0] ≠ cpu_stats_claimed [k0] := by
  decide

/-- C9: the three memory_stats quantities are all converted from pages
to kilobytes by the same shift `PAGE_SHIFT - 10`, and — whenever
`freeram ≤ totalram` and the total does not overflow 64 bits, which
`si_meminfo` guarantees — the used value equals total minus free. -/
theorem memory_stats_exact (totalram freeram : Nat)
    (h1 : freeram ≤ totalram) (h2 : totalram <<< memShift < W64) :
    get_memory_stats totalram freeram =
      (totalram <<< memShift, freeram <<< memShift, (totalram - freeram) <<< memShift) ∧
    (totalram - freeram) <<< memShift = totalram <<< memShift - freeram <<< memShift := by
  simp only [get_memory_stats, memShift, PAGE_SHIFT, W64, Nat.shiftLeft_eq] at *
  norm_num at *
  constructor
  · refine ⟨?_, ?_, ?_⟩ <;> omega
  · omega

/-- Witness for C9 at totalram = 1000, freeram = 400 pages. -/
theorem memory_stats_exact_witness :
    ((400 : Nat) ≤ 1000 ∧ (1000 : Nat) <<< memShift < W64) ∧
    get_memory_stats 1000 400 =
      (1000 <<< memShift, 400 <<< memShift, (1000 - 400) <<< memShift) :=
  ⟨⟨by decide, by decide⟩, (memory_stats_exact 1000 400 (by decide) (by decide)).1⟩

/-- C8: every invocation of the renderer succeeds (returns 0) and emits
the seven sections in the fixed order cpu_stats, memory_stats,
process_count, io_stats, network_stats, history, top_processes — for
every state, including the zero-initialised one before any tick: the
history section always carries exactly N = 60 data lines and the
top_processes section at most M = 50. -/
theorem report_complete (cpus : List KernelCpustat) (totalram freeram : Nat)
    (tasks : List Task) (devs : List NetDev) (hist : StatsHistory)
    (table : Nat → ProcessStats) :
    ∃ c m p io nw : String, ∃ hl tl : List String,
      system_stats_show cpus totalram freeram tasks devs hist table =
        (0, ("cpu_stats:" ++ c) :: ("memory_stats:" ++ m) ::
            ("process_count:" ++ p) :: ("io_stats:" ++ io) ::
            ("network_stats:" ++ nw) :: "history:" ::
            (hl ++ "" :: "top_processes:" :: tl)) ∧
      hl.length = HISTORY_SIZE ∧ tl.length ≤ MAX_PROCESSES := by
  refine ⟨cpu_stats_body cpus, memory_stats_body totalram freeram,
    process_count_body tasks, io_stats_body tasks, network_stats_body devs,
    history_data_lines hist, top_data_lines table, rfl, ?_, ?_⟩
  · simp [history_data_lines, show_history]
  · unfold top_data_lines topEntries
    rw [List.length_map]
    calc (((List.range MAX_PROCESSES).map table).takeWhile (fun q => q.pid != 0)).length
        ≤ ((List.range MAX_PROCESSES).map table).length := takeWhile_length_le _ _
      _ = MAX_PROCESSES := by simp

/-! ## Control-channel theorems -/

/-- `strncmp a b b.length = 0` means exactly that `a` begins with `b`,
whenever `b` has no NUL bytes. -/
theorem strncmp_eq_zero_iff (b : List Nat) (hb : ∀ x ∈ b, x ≠ 0) :
    ∀ a : List Nat, (strncmp a b b.length = 0 ↔ a.take b.length = b) := by
  induction b with
  | nil => intro a; simp [strncmp]
  | cons x bs ih =>
    intro a
    have hx : x ≠ 0 := hb x (List.mem_cons_self x bs)
    have hbs : ∀ y ∈ bs, y ≠ 0 := fun y hy => hb y (List.mem_cons_of_mem x hy)
    cases a with
    | nil =>
      simp only [List.length_cons, strncmp, List.headD_nil, List.headD_cons]
      rw [if_pos (Ne.symm hx)]
      constructor
      · intro h; exfalso; omega
      · intro h; exact absurd h (by simp)
    | cons c a' =>
      simp only [List.length_cons, strncmp, List.headD_cons, List.tail_cons,
        List.take_succ_cons]
      by_cases hcx : c = x
      · subst hcx
        rw [if_neg (by simp), if_neg hx]
        rw [ih hbs a']
        constructor
        · intro h; rw [h]
        · intro h; exact (List.cons.injEq _ _ _ _ ▸ h).2
      · rw [if_pos hcx]
        constructor
        · intro h; exfalso; omega
        · intro h; exact absurd ((List.cons.injEq _ _ _ _ ▸ h).1) hcx

/-- Taking `k ≤ 31` bytes of the truncated command buffer is the same
as taking `k` bytes of the raw input. -/
theorem take_min31 (input : List Nat) (k : Nat) (hk : k ≤ 31) :
    (input.take (min input.length 31)).take k = input.take k := by
  rw [List.take_take]
  by_cases h : input.length ≤ k
  · have h1 : min k (min input.length 31) = input.length := by omega
    rw [h1, List.take_length, List.take_of_length_le h]
  · have h1 : min k (min input.length 31) = k := by omega
    rw [h1]

/-- C5: for every written byte sequence and every prior flag value, the
control write sets the flag to 1 exactly when the input begins with
"enable", to 0 exactly when it begins with "disable", leaves it
unchanged otherwise, and always returns the full input length. -/
theorem control_write_spec (m : Nat) (input : List Nat) :
    control_write m input =
      ((if beginsWith enableBytes input then 1
        else if beginsWith disableBytes input then 0 else m),
       input.length) := by
  simp only [control_write, beginsWith]
  have he := strncmp_eq_zero_iff enableBytes (by decide) (input.take (min input.length 31))
  have hd := strncmp_eq_zero_iff disableBytes (by decide) (input.take (min input.length 31))
  rw [show enableBytes.length = 6 from rfl] at he
  rw [show disableBytes.length = 7 from rfl] at hd
  rw [take_min31 input 6 (by omega)] at he
  rw [take_min31 input 7 (by omega)] at hd
  by_cases h6 : List.take enableBytes.length input = enableBytes
  · rw [if_pos (he.mpr h6), if_pos h6]
  · rw [if_neg (fun h => h6 (he.mp h)), if_neg h6]
    by_cases h7 : List.take disableBytes.length input = disableBytes
    · rw [if_pos (hd.mpr h7), if_pos h7]
    · rw [if_neg (fun h => h7 (hd.mp h)), if_neg h7]

/-! ## Display-parser theorems -/

/-- C10 as stated is false: the claim's "text before the first colon"
for the line `":cpu_stats:1,2,3,4"` is the empty string, which is none
of the four recognized keys, yet `parse_line` updates the cpu fields,
because `strtok` skips the leading colon and hands back the key
`cpu_stats`. -/
theorem parse_line_colon_counterexample :
    (":cpu_stats:1,2,3,4\n".toList.takeWhile (fun c => c ≠ ':') = []) ∧
    (("" : String) ∉ ["cpu_stats", "memory_stats", "process_count", "network_stats"]) ∧
    (parse_line ":cpu_stats:1,2,3,4\n" zeroStats).user = 1 ∧
    zeroStats.user = 0 := by
  decide

/-- C10, amended: for every input line whose first `strtok` token for
delimiter ":" — the text between any leading colons and the next colon
— is absent or differs from all of cpu_stats, memory_stats,
process_count and network_stats, `parse_line` leaves every field of the
stats structure unchanged.  This covers the io_stats, history and
top_processes lines the collector emits. -/
theorem parse_line_frame (line : String) (st : SystemStats)
    (hk : lineKeyRecognized line = false) :
    parse_line line st = st := by
  unfold parse_line
  split
  · rfl
  · rename_i key rest1 heq
    unfold lineKeyRecognized at hk
    rw [heq] at hk
    simp only [Bool.or_eq_false_iff, decide_eq_false_iff_not] at hk
    obtain ⟨⟨⟨hc1, hc2⟩, hc3⟩, hc4⟩ := hk
    split
    · rfl
    · rename_i value rest2 heq2
      simp only [if_neg hc1, if_neg hc2, if_neg hc3, if_neg hc4]

/-- Witness for the amended C10: the io_stats line the collector emits
leaves a zeroed stats structure untouched. -/
theorem parse_line_frame_witness :
    lineKeyRecognized "io_stats:1,2\n" = false ∧
    parse_line "io_stats:1,2\n" zeroStats = zeroStats :=
  ⟨by decide, parse_line_frame "io_stats:1,2\n" zeroStats (by decide)⟩

end SystemMonitor
